import Mathlib

set_option maxRecDepth 4000

/-!
Shallow embedding of the ESP32 serial OTA uploader (`raw.py`) and proofs about
its behaviour.  Bytes are modelled as `Nat` values below 256 and byte strings
as `List Nat`; machine-level truncation is rendered with the same explicit
bitwise masking the source performs.  Wall-clock waiting is abstracted away:
`receive_ack` is modelled as a function of the byte sequence that arrived
within the timeout window (`none` from the scan loop is the timeout outcome),
and the acknowledgment statuses observed by `sync` and `upload_file` are
supplied as a function from attempt or chunk index to status, with `-1` the
local timeout sentinel of `receive_ack`.  Side effects on the transport are
rendered as explicit event traces.
-/

namespace ESP32OTA


/-- One inner round of the CRC loop in `crc16_xmodem`: `crc <<= 1; if crc & 0x10000: crc ^= 0x1021`. -/
def crcRound (crc : Nat) : Nat :=
  let c := crc <<< 1
  if c &&& 0x10000 ≠ 0 then c ^^^ 0x1021 else c

/-- Processing of one input byte in `crc16_xmodem`: `crc ^= byte << 8` followed by eight shift rounds. -/
def crcByte (crc b : Nat) : Nat :=
  crcRound^[8] (crc ^^^ (b <<< 8))

/-- CRC16-XMODEM exactly as `crc16_xmodem` in `raw.py`: accumulator starts at 0, every byte is folded in with `crcByte`, and the result is masked to 16 bits with `crc & 0xFFFF`. -/
def crc16_xmodem (data : List Nat) : Nat :=
  (data.foldl crcByte 0) &&& 0xFFFF


/-- Outbound frame magic header (`OTA_FRAME_HEADER = 0xABCD`). -/
def OTA_FRAME_HEADER : Nat := 0xABCD

/-- Transfer chunk size (`CHUNK_SIZE = 4096`). -/
def CHUNK_SIZE : Nat := 4096

/-- Big-endian 16-bit byte split, the rendering of `struct.pack(">H", n)` for `n < 65536`. -/
def be16 (n : Nat) : List Nat := [n / 256 % 256, n % 256]

/-- Big-endian 16-bit read, the rendering of `struct.unpack(">H", bytes2)`. -/
def decodeBe16 : List Nat → Nat
  | [a, b] => a * 256 + b
  | _ => 0

/-- Protocol command, one of the four `OTA_CMD_*` constants of the source. -/
inductive Command
  | cmdStart
  | cmdData
  | cmdEnd
  | cmdVerify
deriving DecidableEq

/-- Byte value of each command (`OTA_CMD_START = 0x01` and so on). -/
def Command.toByte : Command → Nat
  | Command.cmdStart => 0x01
  | Command.cmdData => 0x02
  | Command.cmdEnd => 0x03
  | Command.cmdVerify => 0x04

/-- Frame construction of `ESP32OTA.send_frame`: header, command byte, 2-byte big-endian payload length, 9 reserved zero bytes, payload, and a trailing big-endian CRC computed over everything before it.  `struct.pack(">H", len(payload))` raises once the payload exceeds 65535 bytes, rendered here as `none`. -/
def send_frame (cmd : Command) (payload : List Nat) : Option (List Nat) :=
  if payload.length > 65535 then none
  else
    let header := be16 OTA_FRAME_HEADER
    let cmd_byte := [cmd.toByte]
    let len_field := be16 payload.length
    let reserved := List.replicate 9 0
    let frame_head := header ++ cmd_byte ++ len_field ++ reserved
    let data_to_sign := frame_head ++ payload
    some (data_to_sign ++ be16 (crc16_xmodem data_to_sign))

/-- Index of the first occurrence of the ack marker `AA 55`, the rendering of `buffer.find(OTA_ACK_HEADER_SEQ)` in `receive_ack`. -/
def findMarker : List Nat → Option Nat
  | [] => none
  | [_] => none
  | a :: b :: rest =>
    if a = 0xAA ∧ b = 0x55 then some 0
    else (findMarker (b :: rest)).map (· + 1)

/-- Outcome of examining a buffer that starts at a candidate marker: a complete CRC-valid frame, a complete frame with a CRC mismatch, or not enough bytes yet. -/
inductive ParseOut
  | ok (status : Nat) (msg : List Nat)
  | badCrc
  | incomplete
deriving DecidableEq

/-- Frame examination of `receive_ack` once the buffer starts at the marker: read `status = buffer[2]` and `msg_len = buffer[3]`, require the full frame `2+1+1+msg_len+2`, and compare the trailing CRC with `crc16_xmodem` of everything before it. -/
def parseAckAt : List Nat → ParseOut
  | a :: b :: status :: msgLen :: rest =>
    if 2 + msgLen ≤ rest.length then
      let msg := rest.take msgLen
      let crcRecv := decodeBe16 ((rest.drop msgLen).take 2)
      if crcRecv = crc16_xmodem (a :: b :: status :: msgLen :: msg) then
        ParseOut.ok status msg
      else ParseOut.badCrc
    else ParseOut.incomplete
  | _ => ParseOut.incomplete

/-- Fuel-indexed scan loop of `receive_ack` over a fully received buffer: find the marker, discard the preceding garbage, parse; on CRC mismatch drop the two marker bytes (`buffer = buffer[2:]`) and rescan.  The third component of a successful result is the total number of discarded garbage bytes.  `none` is the timeout outcome: no complete valid frame in the buffer. -/
def scanAckF : Nat → List Nat → Nat → Option (Nat × List Nat × Nat)
  | 0, _, _ => none
  | fuel + 1, buf, garbage =>
    match findMarker buf with
    | none => none
    | some idx =>
      match parseAckAt (buf.drop idx) with
      | ParseOut.ok st msg => some (st, msg, garbage + idx)
      | ParseOut.badCrc => scanAckF fuel (buf.drop (idx + 2)) (garbage + idx)
      | ParseOut.incomplete => none

/-- The scan loop with enough fuel for its buffer (each rescan consumes at least two bytes). -/
def scanAck (buf : List Nat) (garbage : Nat) : Option (Nat × List Nat × Nat) :=
  scanAckF buf.length buf garbage

/-- CRC-covered region of an acknowledgment frame: marker, status, message length, message. -/
def ackBody (status : Nat) (msg : List Nat) : List Nat :=
  0xAA :: 0x55 :: status :: msg.length :: msg

/-- Well-formed acknowledgment frame: body followed by its big-endian CRC. -/
def encodeAck (status : Nat) (msg : List Nat) : List Nat :=
  ackBody status msg ++ be16 (crc16_xmodem (ackBody status msg))

/-- Acknowledgment frame whose 16-bit CRC field has bit `k` flipped. -/
def corruptAck (status : Nat) (msg : List Nat) (k : Nat) : List Nat :=
  ackBody status msg ++ be16 (crc16_xmodem (ackBody status msg) ^^^ (1 <<< k))

/-- ASCII bytes of the local sentinel message "Timeout". -/
def timeoutMsg : List Nat := [84, 105, 109, 101, 111, 117, 116]

/-- ASCII bytes of the local sentinel message "Serial not connected". -/
def notConnectedMsg : List Nat :=
  [83, 101, 114, 105, 97, 108, 32, 110, 111, 116, 32,
   99, 111, 110, 110, 101, 99, 116, 101, 100]

/-- Result of `ESP32OTA.receive_ack` once the wait ends, over the bytes that arrived within the timeout window: `(-1, "Serial not connected")` when no port is open, the first valid frame's `(status, message)` on success, and `(-1, "Timeout")` otherwise.  The third component records the diagnostic dump of the collected bytes, which the source prints only when the buffer is nonempty, `verbose` is set and the timeout exceeds 0.5 s. -/
def receive_ack (connected verbose : Bool) (timeoutMs : Nat) (buf : List Nat) :
    Int × List Nat × Option (List Nat) :=
  if connected = false then ((-1 : Int), notConnectedMsg, none)
  else
    match scanAck buf 0 with
    | some (st, msg, _) => ((st : Int), msg, none)
    | none =>
      ((-1 : Int), timeoutMsg,
        if buf ≠ [] ∧ verbose = true ∧ 500 < timeoutMs then some buf else none)

/-- Observable actions of `sync`: sending a VERIFY frame and the 0.5 s inter-attempt pause. -/
inductive SyncEvent
  | sendVerify
  | pause
deriving DecidableEq

/-- Retry loop of `ESP32OTA.sync`: `acks i` is the status obtained by attempt `i`; `status == 0` and `status > 0` both end the loop successfully, anything else pauses and retries while attempts remain. -/
def syncAux (acks : Nat → Int) : Nat → Nat → List SyncEvent × Bool
  | _, 0 => ([], false)
  | i, fuel + 1 =>
    if acks i = 0 then ([SyncEvent.sendVerify], true)
    else if acks i > 0 then ([SyncEvent.sendVerify], true)
    else
      let r := syncAux acks (i + 1) fuel
      (SyncEvent.sendVerify :: SyncEvent.pause :: r.1, r.2)

/-- The sync loop: three attempts starting at attempt 0 (`for i in range(3)`). -/
def sync (acks : Nat → Int) : List SyncEvent × Bool := syncAux acks 0 3

/-- Fuel-indexed splitting of a byte string into `CHUNK_SIZE` slices, as the transfer loop computes them via `data[offset : offset + CHUNK_SIZE]`. -/
def chunksF : Nat → List Nat → List (List Nat)
  | 0, _ => []
  | fuel + 1, l =>
    if l = [] then [] else l.take CHUNK_SIZE :: chunksF fuel (l.drop CHUNK_SIZE)

/-- Chunk decomposition with enough fuel (every step consumes at least one byte). -/
def chunks (l : List Nat) : List (List Nat) := chunksF l.length l

/-- Transfer loop of `ESP32OTA.upload_file`: while `offset < file_size`, send the next chunk, wait for its acknowledgment, abort on any non-zero status.  Returns the chunk payloads actually sent and whether the loop completed. -/
def uploadLoopF (acks : Nat → Int) (data : List Nat) :
    Nat → Nat → Nat → List (List Nat) × Bool
  | 0, _, _ => ([], true)
  | fuel + 1, offset, i =>
    if offset < data.length then
      let chunk := (data.drop offset).take CHUNK_SIZE
      if acks i = 0 then
        let r := uploadLoopF acks data fuel (offset + chunk.length) (i + 1)
        (chunk :: r.1, r.2)
      else ([chunk], false)
    else ([], true)

/-- The transfer loop started at offset 0, chunk index 0, with enough fuel. -/
def upload_transfer (acks : Nat → Int) (data : List Nat) : List (List Nat) × Bool :=
  uploadLoopF acks data data.length 0 0

/-- Frames emitted by one `upload_file` call. -/
inductive UFrame
  | startF (size : Nat)
  | dataF (payload : List Nat)
  | endF
deriving DecidableEq

/-- Frame trace and outcome of `ESP32OTA.upload_file`: START (with the file size) is sent first and a non-zero acknowledgment aborts; then the DATA loop; END is sent only when the loop completes, and the call succeeds only when the END acknowledgment status is 0. -/
def upload_file (startAck : Int) (dataAcks : Nat → Int) (endAck : Int)
    (data : List Nat) : List UFrame × Bool :=
  if startAck ≠ 0 then ([UFrame.startF data.length], false)
  else
    let r := upload_transfer dataAcks data
    if r.2 then
      (UFrame.startF data.length :: (r.1.map UFrame.dataF ++ [UFrame.endF]),
        if endAck = 0 then true else false)
    else (UFrame.startF data.length :: r.1.map UFrame.dataF, false)

/-- Payloads of the DATA frames of a frame trace. -/
def dataPayloads (fs : List UFrame) : List (List Nat) :=
  fs.filterMap fun f =>
    match f with
    | UFrame.dataF p => some p
    | _ => none

/-- Observable actions of `_reset_device` on the transport. -/
inductive ResetEvent
  | setDTR (level : Bool)
  | setRTS (level : Bool)
  | sleepMs (ms : Nat)
  | flushInput
deriving DecidableEq

/-- Action sequence of `ESP32OTA._reset_device`: with an open port, deassert DTR and RTS, sleep 0.1 s, assert RTS, sleep 0.1 s, deassert RTS, sleep 0.1 s, sleep 2 s for boot, then `reset_input_buffer()`.  Without an open port the method returns immediately.  The sequence takes no timing parameters. -/
def reset_device (connected : Bool) : List ResetEvent :=
  if connected then
    [ResetEvent.setDTR false, ResetEvent.setRTS false, ResetEvent.sleepMs 100,
     ResetEvent.setRTS true, ResetEvent.sleepMs 100,
     ResetEvent.setRTS false, ResetEvent.sleepMs 100,
     ResetEvent.sleepMs 2000, ResetEvent.flushInput]
  else []

/-- Transport state seen by the reset sequence: the two control lines and the receive buffer. -/
structure LinkState where
  dtr : Bool
  rts : Bool
  inputBuf : List Nat
deriving DecidableEq

/-- Effect of one reset action on the transport; during each sleep the booting device may append arbitrary bytes (`arrivals k` during the `k`-th sleep) to the receive buffer. -/
def stepReset (arrivals : Nat → List Nat) :
    LinkState × Nat → ResetEvent → LinkState × Nat
  | (s, k), ResetEvent.setDTR b => ({ s with dtr := b }, k)
  | (s, k), ResetEvent.setRTS b => ({ s with rts := b }, k)
  | (s, k), ResetEvent.sleepMs _ => ({ s with inputBuf := s.inputBuf ++ arrivals k }, k + 1)
  | (s, k), ResetEvent.flushInput => ({ s with inputBuf := [] }, k)

/-- Transport state after running a reset action sequence. -/
def runReset (arrivals : Nat → List Nat) (s0 : LinkState) (evs : List ResetEvent) :
    LinkState :=
  (evs.foldl (stepReset arrivals) (s0, 0)).1

/-- Total milliseconds slept by an action sequence. -/
def sleepTotal (evs : List ResetEvent) : Nat :=
  (evs.map fun e =>
    match e with
    | ResetEvent.sleepMs ms => ms
    | _ => 0).sum

theorem decodeBe16_be16 (n : Nat) (h : n < 65536) : decodeBe16 (be16 n) = n := by
  simp only [be16, decodeBe16]
  omega

theorem crc16_lt (data : List Nat) : crc16_xmodem data < 65536 :=
  lt_of_le_of_lt Nat.and_le_right (by norm_num)

theorem parseAckAt_body (status : Nat) (msg : List Nat) (v : Nat) (hv : v < 65536) :
    parseAckAt (ackBody status msg ++ be16 v) =
      if v = crc16_xmodem (ackBody status msg) then ParseOut.ok status msg
      else ParseOut.badCrc := by
  have hshape : ackBody status msg ++ be16 v =
      0xAA :: 0x55 :: status :: msg.length :: (msg ++ be16 v) := by
    simp [ackBody]
  rw [hshape, parseAckAt]
  have hlen : 2 + msg.length ≤ (msg ++ be16 v).length := by
    simp [be16]; omega
  rw [if_pos hlen]
  have htake : (msg ++ be16 v).take msg.length = msg := List.take_left msg (be16 v)
  have hdrop : (msg ++ be16 v).drop msg.length = be16 v := List.drop_left msg (be16 v)
  rw [htake, hdrop]
  have htake2 : (be16 v).take 2 = be16 v := by simp [be16]
  rw [htake2, decodeBe16_be16 v hv, ackBody]

theorem findMarker_append (g t : List Nat) (hg : findMarker g = none) :
    findMarker (g ++ 0xAA :: 0x55 :: t) = some g.length := by
  induction g with
  | nil => simp [findMarker]
  | cons a g' ih =>
    cases g' with
    | nil =>
      rw [List.cons_append, List.nil_append, findMarker]
      rw [if_neg (by omega : ¬(a = 0xAA ∧ 0xAA = 0x55))]
      rw [findMarker, if_pos ⟨rfl, rfl⟩]
      rfl
    | cons b g'' =>
      rw [findMarker] at hg
      rw [List.cons_append, List.cons_append, findMarker]
      by_cases hab : a = 0xAA ∧ b = 0x55
      · rw [if_pos hab] at hg; cases hg
      · rw [if_neg hab] at hg
        rw [if_neg hab]
        have hg' : findMarker (b :: g'') = none := by
          cases hfm : findMarker (b :: g'') with
          | none => rfl
          | some j => rw [hfm] at hg; cases hg
        have := ih hg'
        rw [← List.cons_append]
        rw [this]
        rfl

theorem encodeAck_shape (status : Nat) (msg : List Nat) :
    encodeAck status msg =
      0xAA :: 0x55 ::
        (status :: msg.length :: msg ++ be16 (crc16_xmodem (ackBody status msg))) := by
  simp [encodeAck, ackBody]

theorem scanAckF_agree :
    ∀ f₁ f₂ buf g, buf.length ≤ 2 * f₁ → buf.length ≤ 2 * f₂ →
      scanAckF f₁ buf g = scanAckF f₂ buf g := by
  intro f₁
  induction f₁ with
  | zero =>
    intro f₂ buf g h1 _
    have hbuf : buf = [] := by
      cases buf with
      | nil => rfl
      | cons a t => simp at h1
    subst hbuf
    cases f₂ with
    | zero => rfl
    | succ f₂ => simp [scanAckF, findMarker]
  | succ f₁ ih =>
    intro f₂ buf g h1 h2
    cases f₂ with
    | zero =>
      have hbuf : buf = [] := by
        cases buf with
        | nil => rfl
        | cons a t => simp at h2
      subst hbuf
      simp [scanAckF, findMarker]
    | succ f₂ =>
      simp only [scanAckF]
      cases hm : findMarker buf with
      | none => rfl
      | some idx =>
        cases hp : parseAckAt (buf.drop idx) with
        | ok st msg => simp [hp]
        | badCrc =>
          simp only [hp]
          exact ih f₂ _ _ (by simp [List.length_drop]; omega)
            (by simp [List.length_drop]; omega)
        | incomplete => simp [hp]

example : scanAck [1, 2, 3] 0 = none := by decide

example :
    scanAck [9, 0xAA, 0x55, 7, 2, 79, 75, 0x8A, 0x5F] 0 =
      some (7, [79, 75], 1) := by decide

theorem scanAck_append_encode (g : List Nat) (status : Nat) (msg : List Nat)
    (hg : findMarker g = none) :
    scanAck (g ++ encodeAck status msg) 0 = some (status, msg, g.length) := by
  have hfm : findMarker (g ++ encodeAck status msg) = some g.length := by
    rw [encodeAck_shape]
    exact findMarker_append g _ hg
  have hlen : (g ++ encodeAck status msg).length = (g.length + msg.length + 5) + 1 := by
    simp [encodeAck, ackBody, be16]
    omega
  rw [scanAck, hlen, scanAckF, hfm]
  have hdrop : (g ++ encodeAck status msg).drop g.length = encodeAck status msg :=
    List.drop_left g _
  have hparse : parseAckAt (encodeAck status msg) = ParseOut.ok status msg := by
    rw [encodeAck, parseAckAt_body status msg _ (crc16_lt _), if_pos rfl]
  simp [hdrop, hparse]

theorem xor_bit_ne (v k : Nat) : v ^^^ (1 <<< k) ≠ v := by
  intro h
  have h2 : (v ^^^ (1 <<< k)) ^^^ v = 0 := by rw [h, Nat.xor_self]
  rw [Nat.xor_comm v (1 <<< k), Nat.xor_assoc, Nat.xor_self, Nat.xor_zero] at h2
  rw [Nat.shiftLeft_eq] at h2
  have : 0 < 1 * 2 ^ k := by positivity
  omega

theorem xor_bit_lt (v k : Nat) (hv : v < 65536) (hk : k < 16) :
    v ^^^ (1 <<< k) < 65536 := by
  have h1 : v < 2 ^ 16 := by norm_num at hv ⊢; omega
  have h2 : 1 <<< k < 2 ^ 16 := by
    rw [Nat.shiftLeft_eq, one_mul]
    exact Nat.pow_lt_pow_right (by norm_num) hk
  have := Nat.xor_lt_two_pow h1 h2
  norm_num at this ⊢
  omega


theorem scanAck_corrupt_skip (status : Nat) (msg : List Nat) (k : Nat) (hk : k < 16) :
    scanAck (corruptAck status msg k) 0 = scanAck ((corruptAck status msg k).drop 2) 0 := by
  have hshape : corruptAck status msg k =
      0xAA :: 0x55 ::
        (status :: msg.length :: msg ++
          be16 (crc16_xmodem (ackBody status msg) ^^^ (1 <<< k))) := by
    simp [corruptAck, ackBody]
  have hfm : findMarker (corruptAck status msg k) = some 0 := by
    rw [hshape, findMarker, if_pos ⟨rfl, rfl⟩]
  have hlen : (corruptAck status msg k).length = (msg.length + 5) + 1 := by
    simp [corruptAck, ackBody, be16]
  have hparse : parseAckAt (corruptAck status msg k) = ParseOut.badCrc := by
    rw [corruptAck, parseAckAt_body status msg _
      (xor_bit_lt _ k (crc16_lt _) hk)]
    rw [if_neg]
    intro h
    exact xor_bit_ne _ k h

  have hlen2 : ((corruptAck status msg k).drop 2).length = msg.length + 4 := by
    simp [corruptAck, ackBody, be16]
  rw [scanAck, hlen, scanAckF, hfm]
  simp only [List.drop_zero, hparse]
  rw [scanAck, hlen2]
  exact scanAckF_agree _ _ _ _ (by rw [hlen2]; omega) (by rw [hlen2]; omega)

theorem parseAckAt_ok_shape :
    ∀ (l : List Nat) (st : Nat) (msg : List Nat), parseAckAt l = ParseOut.ok st msg →
      ∃ a b ml rest, l = a :: b :: st :: ml :: rest := by
  intro l st msg h
  rcases l with _ | ⟨a, _ | ⟨b, _ | ⟨c, _ | ⟨d, rest⟩⟩⟩⟩
  · simp [parseAckAt] at h
  · simp [parseAckAt] at h
  · simp [parseAckAt] at h
  · simp [parseAckAt] at h
  · rw [parseAckAt] at h
    dsimp only at h
    split at h
    · split at h
      · cases h
        exact ⟨a, b, d, rest, rfl⟩
      · cases h
    · cases h

theorem scanAckF_status_lt :
    ∀ (fuel : Nat) (buf : List Nat) (g st : Nat) (msg : List Nat) (gar : Nat),
      (∀ b ∈ buf, b < 256) → scanAckF fuel buf g = some (st, msg, gar) → st < 256 := by
  intro fuel
  induction fuel with
  | zero =>
    intro buf g st msg gar _ h
    simp [scanAckF] at h
  | succ f ih =>
    intro buf g st msg gar hb h
    rw [scanAckF] at h
    cases hm : findMarker buf with
    | none => rw [hm] at h; cases h
    | some idx =>
      rw [hm] at h
      cases hp : parseAckAt (buf.drop idx) with
      | ok st' msg' =>
        simp only [hp] at h
        simp only [Option.some.injEq, Prod.mk.injEq] at h
        obtain ⟨h1, h2, h3⟩ := h
        subst h1
        obtain ⟨a, b, ml, rest2, hl⟩ := parseAckAt_ok_shape _ _ _ hp
        have hmem : st' ∈ buf.drop idx := by rw [hl]; simp
        exact hb st' (List.drop_subset idx buf hmem)
      | badCrc =>
        simp only [hp] at h
        exact ih _ _ _ _ _ (fun x hx => hb x (List.drop_subset _ buf hx)) h
      | incomplete =>
        simp only [hp] at h
        exact Option.noConfusion h

theorem scanAck_status_lt (buf : List Nat) (g st : Nat) (msg : List Nat) (gar : Nat)
    (hb : ∀ b ∈ buf, b < 256) (h : scanAck buf g = some (st, msg, gar)) : st < 256 :=
  scanAckF_status_lt buf.length buf g st msg gar hb h

theorem chunksF_nil : ∀ fuel, chunksF fuel [] = [] := by
  intro fuel
  cases fuel with
  | zero => rfl
  | succ f => simp [chunksF]

theorem chunksF_ne_nil : ∀ fuel (l : List Nat), l ≠ [] → 1 ≤ fuel →
    chunksF fuel l ≠ [] := by
  intro fuel l hl hf
  cases fuel with
  | zero => omega
  | succ f => simp [chunksF, hl]

theorem chunksF_flatten : ∀ fuel (l : List Nat), l.length ≤ fuel →
    (chunksF fuel l).flatten = l := by
  intro fuel
  induction fuel with
  | zero =>
    intro l hl
    have : l = [] := List.length_eq_zero.mp (by omega)
    subst this
    rfl
  | succ f ih =>
    intro l hl
    by_cases hnil : l = []
    · subst hnil; simp [chunksF]
    · rw [chunksF, if_neg hnil]
      rw [List.flatten_cons]
      rw [ih (l.drop CHUNK_SIZE) (by simp [List.length_drop, CHUNK_SIZE]; omega)]
      exact List.take_append_drop _ l

theorem chunksF_length : ∀ fuel (l : List Nat), l.length ≤ fuel →
    (chunksF fuel l).length = (l.length + (CHUNK_SIZE - 1)) / CHUNK_SIZE := by
  intro fuel
  induction fuel with
  | zero =>
    intro l hl
    have : l = [] := List.length_eq_zero.mp (by omega)
    subst this
    simp [chunksF, CHUNK_SIZE]
  | succ f ih =>
    intro l hl
    by_cases hnil : l = []
    · subst hnil; simp [chunksF, CHUNK_SIZE]
    · rw [chunksF, if_neg hnil]
      simp only [List.length_cons]
      rw [ih (l.drop CHUNK_SIZE) (by simp [List.length_drop, CHUNK_SIZE]; omega)]
      have hpos : 0 < l.length := List.length_pos.mpr hnil
      simp only [List.length_drop, CHUNK_SIZE]
      omega

theorem chunksF_dropLast : ∀ fuel (l : List Nat), l.length ≤ fuel →
    ∀ c ∈ (chunksF fuel l).dropLast, c.length = CHUNK_SIZE := by
  intro fuel
  induction fuel with
  | zero =>
    intro l hl c hc
    have : l = [] := List.length_eq_zero.mp (by omega)
    subst this
    simp [chunksF] at hc
  | succ f ih =>
    intro l hl c hc
    by_cases hnil : l = []
    · subst hnil; simp [chunksF] at hc
    · rw [chunksF, if_neg hnil] at hc
      have hpos : 0 < l.length := List.length_pos.mpr hnil
      by_cases hshort : l.length ≤ CHUNK_SIZE
      · have hdropnil : l.drop CHUNK_SIZE = [] := List.drop_eq_nil_of_le hshort
        rw [hdropnil, chunksF_nil] at hc
        simp at hc
      · have hdrop_ne : l.drop CHUNK_SIZE ≠ [] := by
          intro h
          have h2 := List.drop_eq_nil_iff.mp h
          omega
        have hrest_ne : chunksF f (l.drop CHUNK_SIZE) ≠ [] := by
          apply chunksF_ne_nil _ _ hdrop_ne
          simp only [CHUNK_SIZE] at hshort
          omega
        rw [List.dropLast_cons_of_ne_nil hrest_ne] at hc
        rcases List.mem_cons.mp hc with h1 | h2
        · subst h1
          simp only [List.length_take, CHUNK_SIZE] at hshort ⊢
          omega
        · exact ih (l.drop CHUNK_SIZE)
            (by simp [List.length_drop, CHUNK_SIZE]; omega) c h2

theorem getLast?_cons_ne {α : Type} (a : α) (l : List α) (h : l ≠ []) :
    (a :: l).getLast? = l.getLast? := by
  cases l with
  | nil => exact absurd rfl h
  | cons b bs => exact List.getLast?_cons_cons

theorem chunksF_getLast? : ∀ fuel (l : List Nat), l.length ≤ fuel → l ≠ [] →
    (chunksF fuel l).getLast?.map List.length =
      some (if l.length % CHUNK_SIZE = 0 then CHUNK_SIZE else l.length % CHUNK_SIZE) := by
  intro fuel
  induction fuel with
  | zero =>
    intro l hl hnil
    have : l = [] := List.length_eq_zero.mp (by omega)
    exact absurd this hnil
  | succ f ih =>
    intro l hl hnil
    have hpos : 0 < l.length := List.length_pos.mpr hnil
    rw [chunksF, if_neg hnil]
    by_cases hshort : l.length ≤ CHUNK_SIZE
    · have hdropnil : l.drop CHUNK_SIZE = [] := List.drop_eq_nil_of_le hshort
      rw [hdropnil, chunksF_nil]
      simp only [List.getLast?_singleton, Option.map_some', List.length_take,
        Option.some.injEq]
      simp only [CHUNK_SIZE] at hshort ⊢
      split <;> omega
    · have hdrop_ne : l.drop CHUNK_SIZE ≠ [] := by
        intro h
        have h2 := List.drop_eq_nil_iff.mp h
        omega
      have hrest_ne : chunksF f (l.drop CHUNK_SIZE) ≠ [] := by
        apply chunksF_ne_nil _ _ hdrop_ne
        simp only [CHUNK_SIZE] at hshort
        omega
      rw [getLast?_cons_ne _ _ hrest_ne]
      rw [ih (l.drop CHUNK_SIZE)
        (by simp [List.length_drop, CHUNK_SIZE]; omega) hdrop_ne]
      simp only [List.length_drop, CHUNK_SIZE] at hshort ⊢
      have hm : (l.length - 4096) % 4096 = l.length % 4096 := by omega
      rw [hm]

theorem uploadLoopF_allZero (acks : Nat → Int) (data : List Nat)
    (hacks : ∀ j, acks j = 0) :
    ∀ fuel offset i, data.length - offset ≤ fuel →
      uploadLoopF acks data fuel offset i =
        (chunksF fuel (data.drop offset), true) := by
  intro fuel
  induction fuel with
  | zero =>
    intro offset i hle
    simp [uploadLoopF, chunksF]
  | succ f ih =>
    intro offset i hle
    rw [uploadLoopF]
    by_cases hoff : offset < data.length
    · rw [if_pos hoff, hacks i, if_pos rfl]
      have hchunklen : ((data.drop offset).take CHUNK_SIZE).length =
          min CHUNK_SIZE (data.length - offset) := by
        simp [List.length_take, List.length_drop]
      have hne : data.drop offset ≠ [] := by
        intro h
        have := List.drop_eq_nil_iff.mp h
        omega
      rw [chunksF, if_neg hne]
      rw [ih (offset + ((data.drop offset).take CHUNK_SIZE).length) (i + 1)
        (by rw [hchunklen]; simp only [CHUNK_SIZE]; omega)]
      by_cases hbig : CHUNK_SIZE ≤ data.length - offset
      · have h1 : ((data.drop offset).take CHUNK_SIZE).length = CHUNK_SIZE := by
          rw [hchunklen]; omega
        rw [h1]
        rw [List.drop_drop]
      · have h1 : data.drop (offset + ((data.drop offset).take CHUNK_SIZE).length) = [] := by
          apply List.drop_eq_nil_of_le
          rw [hchunklen]
          omega
        have h2 : (data.drop offset).drop CHUNK_SIZE = [] := by
          apply List.drop_eq_nil_of_le
          simp only [List.length_drop]
          omega
        rw [h1, h2]
    · rw [if_neg hoff]
      have hdrop : data.drop offset = [] := List.drop_eq_nil_of_le (by omega)
      rw [hdrop, chunksF_nil]

theorem uploadLoopF_abort (acks : Nat → Int) (data : List Nat) :
    ∀ (i fuel offset idx : Nat), data.length - offset ≤ fuel →
      offset + i * CHUNK_SIZE < data.length →
      (∀ j, j < i → acks (idx + j) = 0) → acks (idx + i) ≠ 0 →
      (uploadLoopF acks data fuel offset idx).1.length = i + 1 ∧
        (uploadLoopF acks data fuel offset idx).2 = false := by
  intro i
  induction i with
  | zero =>
    intro fuel offset idx hfuel hlt _ hfail
    simp only [Nat.zero_mul, Nat.add_zero] at hlt hfail
    cases fuel with
    | zero => omega
    | succ f =>
      rw [uploadLoopF, if_pos hlt, if_neg hfail]
      exact ⟨rfl, rfl⟩
  | succ i ih =>
    intro fuel offset idx hfuel hlt hok hfail
    have hoff : offset < data.length := by
      have : 0 < CHUNK_SIZE := by simp [CHUNK_SIZE]
      nlinarith [Nat.zero_le ((i + 1) * CHUNK_SIZE)]
    cases fuel with
    | zero => omega
    | succ f =>
      have h0 : acks idx = 0 := by
        have := hok 0 (by omega)
        simpa using this
      rw [uploadLoopF, if_pos hoff, h0, if_pos rfl]
      have hchunklen : ((data.drop offset).take CHUNK_SIZE).length = CHUNK_SIZE := by
        simp only [List.length_take, List.length_drop]
        have : CHUNK_SIZE ≤ data.length - offset := by
          simp only [CHUNK_SIZE] at hlt ⊢
          omega
        omega
      have hok' : ∀ j, j < i → acks (idx + 1 + j) = 0 := by
        intro j hj
        have := hok (j + 1) (by omega)
        rw [← this]
        ring_nf
      have hfail' : acks (idx + 1 + i) ≠ 0 := by
        rw [show idx + 1 + i = idx + (i + 1) by ring]
        exact hfail
      have hr := ih f (offset + ((data.drop offset).take CHUNK_SIZE).length) (idx + 1)
        (by rw [hchunklen]; simp only [CHUNK_SIZE] at hfuel ⊢; omega)
        (by rw [hchunklen]; simp only [CHUNK_SIZE] at hlt ⊢; ring_nf; ring_nf at hlt; omega)
        hok' hfail'
      constructor
      · simp only [List.length_cons, hr.1]
      · simp only [hr.2]

theorem dataPayloads_of_frames (s : Nat) (ps : List (List Nat)) :
    dataPayloads (UFrame.startF s :: (ps.map UFrame.dataF ++ [UFrame.endF])) = ps ∧
    dataPayloads (UFrame.startF s :: ps.map UFrame.dataF) = ps := by
  have hcomp : ((fun f =>
      match f with
      | UFrame.dataF p => some p
      | _ => none) ∘ UFrame.dataF) = some := by
    funext p; rfl
  constructor <;>
    simp [dataPayloads, List.filterMap_append, List.filterMap_map, hcomp]

/-- C1: `crc16_xmodem` is a pure total function (a Lean function of its input alone) returning a 16-bit unsigned integer; it maps the empty sequence to 0 and the ASCII bytes of "123456789" to 0x31C3, the standard CRC-16/XMODEM check value. -/
theorem claim1_crc16_conformance :
    (∀ b : List Nat, crc16_xmodem b < 65536) ∧
    crc16_xmodem [] = 0 ∧
    crc16_xmodem [49, 50, 51, 52, 53, 54, 55, 56, 57] = 0x31C3 :=
  ⟨fun b => crc16_lt b, by decide, by decide⟩

/-- C2: with a successful START acknowledgment and every DATA acknowledgment reporting 0, the transfer loop sends exactly `ceil(S/4096)` DATA frames whose payloads are the consecutive 4096-byte slices of the file in order: they concatenate back to the file, their lengths sum to `S`, every payload except the last has length 4096, and the last has length `S mod 4096` (4096 when `S` is an exact multiple). -/
theorem claim2_upload_chunking (data : List Nat) (dataAcks : Nat → Int) (endAck : Int)
    (hacks : ∀ j, dataAcks j = 0) :
    dataPayloads (upload_file 0 dataAcks endAck data).1 = chunks data ∧
    (chunks data).length = (data.length + 4095) / 4096 ∧
    (chunks data).flatten = data ∧
    ((chunks data).map List.length).sum = data.length ∧
    (∀ c ∈ (chunks data).dropLast, c.length = 4096) ∧
    (data ≠ [] →
      (chunks data).getLast?.map List.length =
        some (if data.length % 4096 = 0 then 4096 else data.length % 4096)) := by
  have htr : upload_transfer dataAcks data = (chunks data, true) := by
    rw [upload_transfer, uploadLoopF_allZero dataAcks data hacks data.length 0 0 (by omega)]
    rw [List.drop_zero, chunks]
  have hup : upload_file 0 dataAcks endAck data =
      (UFrame.startF data.length :: ((chunks data).map UFrame.dataF ++ [UFrame.endF]),
        if endAck = 0 then true else false) := by
    rw [upload_file, if_neg (by omega)]
    simp only [htr]
    simp
  have hflat : (chunks data).flatten = data :=
    chunksF_flatten data.length data (by omega)
  refine ⟨?_, ?_, hflat, ?_, ?_, ?_⟩
  · rw [hup]
    exact (dataPayloads_of_frames data.length (chunks data)).1
  · have := chunksF_length data.length data (by omega)
    simpa [chunks, CHUNK_SIZE] using this
  · rw [← List.length_flatten, hflat]
  · have := chunksF_dropLast data.length data (by omega)
    simpa [chunks, CHUNK_SIZE] using this
  · intro hne
    have := chunksF_getLast? data.length data (by omega) hne
    simpa [chunks, CHUNK_SIZE] using this

/-- C2 witness at a concrete 4097-byte file with all-zero acknowledgments. -/
theorem claim2_witness :
    dataPayloads (upload_file 0 (fun _ => 0) 0 (List.replicate 4097 0)).1 =
      chunks (List.replicate 4097 0) ∧
    (chunks (List.replicate 4097 0)).length =
      ((List.replicate 4097 (0 : Nat)).length + 4095) / 4096 ∧
    (chunks (List.replicate 4097 0)).flatten = List.replicate 4097 0 ∧
    ((chunks (List.replicate 4097 0)).map List.length).sum =
      (List.replicate 4097 (0 : Nat)).length ∧
    (∀ c ∈ (chunks (List.replicate 4097 0)).dropLast, c.length = 4096) ∧
    ((List.replicate 4097 (0 : Nat)) ≠ [] →
      (chunks (List.replicate 4097 0)).getLast?.map List.length =
        some (if (List.replicate 4097 (0 : Nat)).length % 4096 = 0 then 4096
          else (List.replicate 4097 (0 : Nat)).length % 4096)) :=
  claim2_upload_chunking (List.replicate 4097 0) (fun _ => 0) 0 (fun _ => rfl)

/-- C3: for every command and payload of at most 65535 bytes, `send_frame` emits exactly the header bytes `AB CD`, the command byte, the big-endian payload length, nine zero reserved bytes, the payload, and the big-endian CRC over everything preceding it; encoding fails exactly when the payload exceeds 65535 bytes. -/
theorem claim3_send_frame_layout (cmd : Command) (payload : List Nat) :
    (payload.length ≤ 65535 →
      send_frame cmd payload =
        some ((0xAB :: 0xCD :: cmd.toByte :: (payload.length / 256) ::
            (payload.length % 256) :: (List.replicate 9 0 ++ payload)) ++
          be16 (crc16_xmodem
            (0xAB :: 0xCD :: cmd.toByte :: (payload.length / 256) ::
              (payload.length % 256) :: (List.replicate 9 0 ++ payload))))) ∧
    (65535 < payload.length → send_frame cmd payload = none) := by
  constructor
  · intro hle
    have hgt : ¬ payload.length > 65535 := by omega
    have h256 : payload.length / 256 < 256 := by omega
    have hb : be16 payload.length = [payload.length / 256, payload.length % 256] := by
      simp [be16, Nat.mod_eq_of_lt h256]
    have hhdr : be16 OTA_FRAME_HEADER = [0xAB, 0xCD] := rfl
    simp only [send_frame, hgt, if_false, hhdr, hb]
    simp [List.cons_append, List.append_assoc]
  · intro hgt
    simp [send_frame]
    omega

/-- C3 witness at the START command with payload `[1, 2, 3]`. -/
theorem claim3_witness :
    (([1, 2, 3] : List Nat).length ≤ 65535) ∧
    send_frame Command.cmdStart [1, 2, 3] =
      some ((0xAB :: 0xCD :: Command.cmdStart.toByte ::
          (([1, 2, 3] : List Nat).length / 256) ::
          (([1, 2, 3] : List Nat).length % 256) ::
          (List.replicate 9 0 ++ [1, 2, 3])) ++
        be16 (crc16_xmodem
          (0xAB :: 0xCD :: Command.cmdStart.toByte ::
            (([1, 2, 3] : List Nat).length / 256) ::
            (([1, 2, 3] : List Nat).length % 256) ::
            (List.replicate 9 0 ++ [1, 2, 3])))) :=
  ⟨by decide, (claim3_send_frame_layout Command.cmdStart [1, 2, 3]).1 (by decide)⟩

/-- C4: prefixing a valid acknowledgment frame with `N` marker-free noise bytes still yields the frame's `(status, message)`, and the discarded-garbage count of the scan loop is exactly `N`.  (The junction pair noise-byte/`0xAA` can never form the marker `AA 55`, so marker-freedom of the noise alone covers the boundary.) -/
theorem claim4_garbage_resilience (noise : List Nat) (status : Nat) (msg : List Nat)
    (verbose : Bool) (timeoutMs : Nat)
    (hnoise : findMarker noise = none) (hstatus : status < 256)
    (hmsglen : msg.length ≤ 255) (hbytes : ∀ b ∈ msg, b < 256) :
    receive_ack true verbose timeoutMs (noise ++ encodeAck status msg) =
      ((status : Int), msg, none) ∧
    scanAck (noise ++ encodeAck status msg) 0 = some (status, msg, noise.length) := by
  have hscan := scanAck_append_encode noise status msg hnoise
  refine ⟨?_, hscan⟩
  rw [receive_ack]
  simp [hscan]

/-- C4 witness: three noise bytes before a status-7 frame with message "OK". -/
theorem claim4_witness :
    receive_ack true false 1000 ([1, 2, 3] ++ encodeAck 7 [79, 75]) =
      ((7 : Int), [79, 75], none) ∧
    scanAck ([1, 2, 3] ++ encodeAck 7 [79, 75]) 0 =
      some (7, [79, 75], ([1, 2, 3] : List Nat).length) :=
  claim4_garbage_resilience [1, 2, 3] 7 [79, 75] false 1000
    (by decide) (by decide) (by decide) (by decide)

/-- C5: flipping any single bit of the trailing CRC field of an otherwise valid acknowledgment frame makes the scan reject the frame at the marker and continue exactly two bytes past it within the same call; when the remainder holds no valid frame the call yields the timeout sentinel `(-1, "Timeout")`. -/
theorem claim5_crc_corruption (status : Nat) (msg : List Nat) (k : Nat)
    (hk : k < 16) (hstatus : status < 256) (hmsglen : msg.length ≤ 255) :
    scanAck (corruptAck status msg k) 0 = scanAck ((corruptAck status msg k).drop 2) 0 ∧
    (scanAck ((corruptAck status msg k).drop 2) 0 = none →
      ∀ (verbose : Bool) (timeoutMs : Nat),
        (receive_ack true verbose timeoutMs (corruptAck status msg k)).1 = -1 ∧
        (receive_ack true verbose timeoutMs (corruptAck status msg k)).2.1 = timeoutMsg) := by
  have hskip := scanAck_corrupt_skip status msg k hk
  refine ⟨hskip, ?_⟩
  intro hnm verbose timeoutMs
  have hnone : scanAck (corruptAck status msg k) 0 = none := hskip.trans hnm
  rw [receive_ack]
  simp [hnone]

/-- C5 witness: a status-0 frame with message "OK" and CRC bit 0 flipped. -/
theorem claim5_witness :
    scanAck (corruptAck 0 [79, 75] 0) 0 = scanAck ((corruptAck 0 [79, 75] 0).drop 2) 0 ∧
    (receive_ack true false 1000 (corruptAck 0 [79, 75] 0)).1 = -1 ∧
    (receive_ack true false 1000 (corruptAck 0 [79, 75] 0)).2.1 = timeoutMsg :=
  ⟨(claim5_crc_corruption 0 [79, 75] 0 (by decide) (by decide) (by decide)).1,
    (claim5_crc_corruption 0 [79, 75] 0 (by decide) (by decide) (by decide)).2
      (by decide) false 1000⟩

/-- C6: when every VERIFY attempt times out, `sync` performs exactly three send-VERIFY attempts, each followed by the pause, and reports failure; as soon as an attempt's status is 0 or positive it reports success immediately, having sent exactly that many VERIFY frames. -/
theorem claim6_sync_retry (acks : Nat → Int) :
    ((∀ j, j < 3 → acks j = -1) →
      sync acks =
        ([SyncEvent.sendVerify, SyncEvent.pause, SyncEvent.sendVerify, SyncEvent.pause,
          SyncEvent.sendVerify, SyncEvent.pause], false)) ∧
    (∀ j, j < 3 → (∀ k, k < j → acks k = -1) → 0 ≤ acks j →
      (sync acks).2 = true ∧
      (sync acks).1.count SyncEvent.sendVerify = j + 1) := by
  constructor
  · intro h
    have h0 := h 0 (by omega)
    have h1 := h 1 (by omega)
    have h2 := h 2 (by omega)
    simp [sync, syncAux, h0, h1, h2]
  · intro j hj hprev hok
    interval_cases j
    · by_cases hz : acks 0 = 0
      · constructor <;> simp [sync, syncAux, hz]
      · have hpos : acks 0 > 0 := by omega
        constructor <;> simp [sync, syncAux, hz, hpos]
    · have h0 := hprev 0 (by omega)
      by_cases hz : acks 1 = 0
      · constructor <;> simp [sync, syncAux, h0, hz]
      · have hpos : acks 1 > 0 := by omega
        constructor <;> simp [sync, syncAux, h0, hz, hpos]
    · have h0 := hprev 0 (by omega)
      have h1 := hprev 1 (by omega)
      by_cases hz : acks 2 = 0
      · constructor <;> simp [sync, syncAux, h0, h1, hz]
      · have hpos : acks 2 > 0 := by omega
        constructor <;> simp [sync, syncAux, h0, h1, hz, hpos]

/-- C6 witness: all three attempts time out. -/
theorem claim6_witness :
    sync (fun _ => -1) =
      ([SyncEvent.sendVerify, SyncEvent.pause, SyncEvent.sendVerify, SyncEvent.pause,
        SyncEvent.sendVerify, SyncEvent.pause], false) :=
  (claim6_sync_retry (fun _ => -1)).1 (fun _ _ => rfl)

/-- C7: if the `i`-th DATA acknowledgment (the first failing one) is non-zero — including the local timeout sentinel — then exactly `i + 1` DATA frames are ever sent, no END frame is sent, and the upload reports failure. -/
theorem claim7_upload_abort (data : List Nat) (dataAcks : Nat → Int) (endAck : Int)
    (i : Nat) (hi : i < (data.length + 4095) / 4096)
    (hok : ∀ j, j < i → dataAcks j = 0) (hfail : dataAcks i ≠ 0) :
    (dataPayloads (upload_file 0 dataAcks endAck data).1).length = i + 1 ∧
    UFrame.endF ∉ (upload_file 0 dataAcks endAck data).1 ∧
    (upload_file 0 dataAcks endAck data).2 = false := by
  have habort := uploadLoopF_abort dataAcks data i data.length 0 0 (by omega)
    (by simp only [CHUNK_SIZE]; omega)
    (by intro j hj; simpa using hok j hj)
    (by simpa using hfail)
  have hfalse : (upload_transfer dataAcks data).2 = false := habort.2
  have hup : upload_file 0 dataAcks endAck data =
      (UFrame.startF data.length ::
        (upload_transfer dataAcks data).1.map UFrame.dataF, false) := by
    rw [upload_file, if_neg (by omega)]
    simp only [hfalse]
    simp
  refine ⟨?_, ?_, ?_⟩
  · rw [hup]
    rw [(dataPayloads_of_frames data.length (upload_transfer dataAcks data).1).2]
    exact habort.1
  · rw [hup]
    simp
  · rw [hup]

/-- C7 witness: a two-chunk file whose first DATA acknowledgment reports status 1. -/
theorem claim7_witness :
    (dataPayloads (upload_file 0 (fun _ => 1) 0 (List.replicate 5000 0)).1).length = 0 + 1 ∧
    UFrame.endF ∉ (upload_file 0 (fun _ => 1) 0 (List.replicate 5000 0)).1 ∧
    (upload_file 0 (fun _ => 1) 0 (List.replicate 5000 0)).2 = false :=
  claim7_upload_abort (List.replicate 5000 0) (fun _ => 1) 0 0
    (by rw [List.length_replicate]; decide) (fun j hj => absurd hj (by omega))
    (by decide)

/-- C8 counterexample: a wait that collects the bytes `[1, 2, 3]` and times out returns `(-1, "Timeout")` with no diagnostic dump (the default `verbose = false`), so the collected raw bytes are not returned with the timeout status. -/
theorem claim8_counterexample :
    ([1, 2, 3] : List Nat) ≠ [] ∧
    receive_ack true false 1000 [1, 2, 3] = (-1, timeoutMsg, none) := by
  constructor
  · decide
  · decide

/-- C8 (amended): whenever no complete valid frame is found before the deadline, `receive_ack` returns the local timeout sentinel `(-1, "Timeout")`; the collected raw bytes are not part of the returned value and are only printed for diagnostics, and only when the buffer is nonempty, `verbose` is set and the timeout exceeds 0.5 s. -/
theorem claim8_amended (verbose : Bool) (timeoutMs : Nat) (buf : List Nat)
    (h : scanAck buf 0 = none) :
    receive_ack true verbose timeoutMs buf =
      (-1, timeoutMsg,
        if buf ≠ [] ∧ verbose = true ∧ 500 < timeoutMs then some buf else none) := by
  rw [receive_ack]
  simp [h]

/-- C8 witness: with `verbose = true` and a 1 s timeout the collected bytes are dumped. -/
theorem claim8_witness :
    receive_ack true true 1000 [1, 2, 3] =
      (-1, timeoutMsg,
        if ([1, 2, 3] : List Nat) ≠ [] ∧ true = true ∧ 500 < 1000 then some [1, 2, 3]
        else none) :=
  claim8_amended true 1000 [1, 2, 3] (by decide)

/-- C9: a reset on an open port performs, in strict order: deassert both control lines, hold 100 ms; assert RTS (reset) with DTR still deasserted, hold 100 ms; deassert RTS, hold 100 ms; block 2000 ms for boot settle; finally flush the input buffer.  Whatever the device wrote during the sleeps, the transport ends with both lines deasserted and an empty receive buffer, the flush is the last action, the sequence sleeps 2300 ms in total, and `reset_device` takes no timing parameters. -/
theorem claim9_reset_sequence :
    reset_device true =
      [ResetEvent.setDTR false, ResetEvent.setRTS false, ResetEvent.sleepMs 100,
       ResetEvent.setRTS true, ResetEvent.sleepMs 100,
       ResetEvent.setRTS false, ResetEvent.sleepMs 100,
       ResetEvent.sleepMs 2000, ResetEvent.flushInput] ∧
    (∀ (arrivals : Nat → List Nat) (s0 : LinkState),
      runReset arrivals s0 (reset_device true) =
        { dtr := false, rts := false, inputBuf := [] }) ∧
    sleepTotal (reset_device true) = 2300 ∧
    (reset_device true).getLast? = some ResetEvent.flushInput := by
  refine ⟨rfl, ?_, rfl, rfl⟩
  intro arrivals s0
  rfl

/-- C10: any non-negative status returned by `receive_ack` was read as an unsigned byte off the wire and lies in 0..255; a negative status is always exactly -1 and is paired with the local message "Timeout" or "Serial not connected". -/
theorem claim10_status_range (connected verbose : Bool) (timeoutMs : Nat)
    (buf : List Nat) (hbytes : ∀ b ∈ buf, b < 256) :
    (0 ≤ (receive_ack connected verbose timeoutMs buf).1 →
      (receive_ack connected verbose timeoutMs buf).1 ≤ 255) ∧
    ((receive_ack connected verbose timeoutMs buf).1 < 0 →
      (receive_ack connected verbose timeoutMs buf).1 = -1 ∧
      ((receive_ack connected verbose timeoutMs buf).2.1 = timeoutMsg ∨
        (receive_ack connected verbose timeoutMs buf).2.1 = notConnectedMsg)) := by
  rw [receive_ack]
  by_cases hc : connected = false
  · simp [hc]
  · rw [if_neg hc]
    cases hscan : scanAck buf 0 with
    | none => simp
    | some r =>
      obtain ⟨st, msg, gar⟩ := r
      have hlt := scanAck_status_lt buf 0 st msg gar hbytes hscan
      constructor
      · intro _
        simp only []
        omega
      · intro hneg
        simp only [] at hneg
        omega

/-- C10 witness at a concrete marker-free buffer. -/
theorem claim10_witness :
    (0 ≤ (receive_ack true false 1000 [1, 2, 3]).1 →
      (receive_ack true false 1000 [1, 2, 3]).1 ≤ 255) ∧
    ((receive_ack true false 1000 [1, 2, 3]).1 < 0 →
      (receive_ack true false 1000 [1, 2, 3]).1 = -1 ∧
      ((receive_ack true false 1000 [1, 2, 3]).2.1 = timeoutMsg ∨
        (receive_ack true false 1000 [1, 2, 3]).2.1 = notConnectedMsg)) :=
  claim10_status_range true false 1000 [1, 2, 3] (by decide)

end ESP32OTA
